import Mathlib

/-!
Verification development for the token-limit resolution module
(`packages/api/src/utils/tokens.ts`): the pattern-matching resolution
algorithm (`findMatchingPattern`, `getModelTokenValue`, `matchModelName`)
and the catalog normalization transform (`processModelData`).

Modelling conventions:
* JavaScript numbers are modelled exactly as rationals plus a `nan`
  marker (`JNum`); `parseFloat` is modelled as an exact decimal parser
  (IEEE rounding is below the granularity of the properties checked).
* A `TokenMap` (a JS object used as an ordered dictionary) is an
  association list in insertion order with distinct keys; property read
  is `mapGet`, property assignment is `setKey` (update in place, append
  when fresh), `Object.keys` is `List.map Prod.fst`.
* JS truthiness is modelled explicitly where the source relies on it:
  `if (value?.context)` (a present-but-zero or NaN context is falsy),
  `if (matchedPattern)` (the empty string is falsy),
  `if (tokensMap[modelName])` (a zero number value is falsy).
* A possibly-non-string argument (`typeof modelName !== 'string'`) is
  `JSArg`; an absent (`undefined`) map argument is `Option TokenMap`.
* The zod schemas `modelSchema` / `inputSchema` are modelled as a parser
  over a JSON value type `JValue`; `processModelData`'s
  `throw new Error('Invalid input data')` is `Except.error`.
-/

/-- `charsStartWith pre l` holds when `l` starts with `pre` (character lists). -/
def charsStartWith : List Char → List Char → Bool
  | [], _ => true
  | _ :: _, [] => false
  | c :: cs, d :: ds => c == d && charsStartWith cs ds

/-- `charsContains needle hay` holds when `needle` occurs contiguously in `hay`. -/
def charsContains (needle : List Char) : List Char → Bool
  | [] => charsStartWith needle []
  | c :: t => charsStartWith needle (c :: t) || charsContains needle t

/-- JavaScript `hay.includes(needle)`: substring containment. -/
def strIncludes (hay needle : String) : Bool :=
  charsContains needle.toList hay.toList

/-- JavaScript `s.toLowerCase()` (ASCII-faithful): lowercase each character. -/
def jsToLower (s : String) : String := String.mk (s.toList.map Char.toLower)

/-- A JavaScript number: an exact rational or NaN. -/
inductive JNum where
  | rat : ℚ → JNum
  | nan : JNum
deriving DecidableEq, Repr

/-- JS truthiness of a number: `0` and `NaN` are falsy. -/
def JNum.truthy : JNum → Bool
  | JNum.rat q => q != 0
  | JNum.nan => false

/-- Multiplication by `1000000` (the dollars-per-token to
dollars-per-million-tokens conversion); NaN propagates. -/
def JNum.mul1e6 : JNum → JNum
  | JNum.rat q => JNum.rat (q * 1000000)
  | JNum.nan => JNum.nan

/-- JS truthiness of an optional number field (`undefined` is falsy). -/
def jnumOptTruthy : Option JNum → Bool
  | some n => n.truthy
  | none => false

/-- The structured token record (`TokenConfig` in `~/types`): optional
numeric fields `prompt`, `completion`, `context`, `output`; an absent
field is `undefined`. -/
structure TokenConfig where
  prompt : Option JNum := none
  completion : Option JNum := none
  context : Option JNum := none
  output : Option JNum := none
deriving DecidableEq, Repr

/-- A value of a tokens map: a bare number or a structured record
(`Record<string, number> | EndpointTokenConfig`). -/
inductive TokenValue where
  | num : JNum → TokenValue
  | config : TokenConfig → TokenValue
deriving DecidableEq, Repr

/-- A JS object used as an ordered string-keyed dictionary: association
list in insertion order, keys distinct in any object produced by the code. -/
abbrev TokenMap := List (String × TokenValue)

/-- JS property read `m[k]`: the value at key `k`, `undefined` when absent. -/
def mapGet (m : TokenMap) (k : String) : Option TokenValue :=
  match m.find? (fun p => p.1 == k) with
  | some p => some p.2
  | none => none

/-- JS property assignment `m[k] = v`: update in place when the key
exists, append otherwise (insertion-order semantics of JS objects). -/
def setKey (m : TokenMap) (k : String) (v : TokenValue) : TokenMap :=
  match m with
  | [] => [(k, v)]
  | (a, w) :: t => if a = k then (a, v) :: t else (a, w) :: setKey t k v

/-- The field selector (`keyof TokenConfig`). -/
inductive TokenField where
  | prompt | completion | context | output
deriving DecidableEq, Repr

/-- Dynamic field access `c[key]` on a structured record. -/
def TokenConfig.getF (c : TokenConfig) : TokenField → Option JNum
  | TokenField.prompt => c.prompt
  | TokenField.completion => c.completion
  | TokenField.context => c.context
  | TokenField.output => c.output

/-- A JS argument that may fail `typeof x === 'string'`. -/
inductive JSArg where
  | str : String → JSArg
  | other : JSArg
deriving DecidableEq, Repr

/-- Source lines 31–45: `findMatchingPattern(modelName, tokensMap)`.
Lowercases the model name once and scans `Object.keys(tokensMap)` from
the last index down, returning the first key that is a substring of the
lowercased name, else `null`. -/
def findMatchingPattern (modelName : String) (tokensMap : TokenMap) : Option String :=
  (tokensMap.map Prod.fst).reverse.find? (fun k => strIncludes (jsToLower modelName) k)

/-- Source lines 69–71: `if (value?.context) return value.context` — the
context field of a structured exact-match value, when truthy. -/
def truthyContext : Option TokenValue → Option JNum
  | some (TokenValue.config c) =>
    match c.context with
    | some n => if n.truthy then some n else none
    | none => none
  | _ => none

/-- Source lines 64–71 combined: the exact-match step of
`getModelTokenValue` — a bare number is returned as is
(`typeof value === 'number'`), a structured value yields its truthy
context, anything else falls through to pattern resolution. -/
def exactStep (v : Option TokenValue) : Option JNum :=
  match v with
  | some (TokenValue.num n) => some n
  | v2 => truthyContext v2

/-- Source lines 73–88: the pattern-resolution tail of
`getModelTokenValue`. `if (matchedPattern)` is a JS truthiness test, so
a matched empty-string key is treated as no match; a bare-number entry
is returned directly; a structured entry yields `result?.[key]` when
that is a number, else `tokensMap.system_default`; no match also yields
`tokensMap.system_default`. -/
def patternPath (modelName : String) (m : TokenMap) (key : TokenField) : Option TokenValue :=
  match findMatchingPattern modelName m with
  | some pat =>
    if pat = "" then mapGet m "system_default"
    else
      match mapGet m pat with
      | some (TokenValue.num n) => some (TokenValue.num n)
      | some (TokenValue.config c) =>
        match c.getF key with
        | some v => some (TokenValue.num v)
        | none => mapGet m "system_default"
      | none => mapGet m "system_default"
  | none => mapGet m "system_default"

/-- Source lines 55–89: `getModelTokenValue(modelName, tokensMap, key = 'context')`.
Returns `undefined` for a non-string name or an absent map, otherwise
runs the exact-match step and then the pattern path. The returned
`Option TokenValue` is `some (TokenValue.num _)` on every path except
the raw `tokensMap.system_default` fallthrough, which returns whatever
is stored there (the source casts it to `number | undefined`). -/
def getModelTokenValue (modelName : JSArg) (tokensMap : Option TokenMap)
    (key : TokenField := TokenField.context) : Option TokenValue :=
  match modelName, tokensMap with
  | JSArg.other, _ => none
  | JSArg.str _, none => none
  | JSArg.str name, some m =>
    match exactStep (mapGet m name) with
    | some n => some (TokenValue.num n)
    | none => patternPath name m key

/-- JS truthiness of `tokensMap[modelName]` (source line 152): absent is
falsy, a zero or NaN number is falsy, an object is truthy. -/
def valueTruthy : Option TokenValue → Bool
  | some (TokenValue.num n) => n.truthy
  | some (TokenValue.config _) => true
  | none => false

/-- Source lines 139–158: `matchModelName(modelName, endpoint)`.
Modelled from the spec: the built-in table `maxTokensMap[endpoint]` is
supplied by the external configuration-constants module
(`librechat-data-provider`, not part of this package's sources), so the
already-indexed table is taken here as the parameter `builtinMap`
(`none` when no built-in map exists for the endpoint). The body is the
source's: non-string name → `undefined`; no map → the name; truthy exact
value → the name; else `findMatchingPattern(...) || modelName` (so an
empty-string match also echoes the name). -/
def matchModelName (modelName : JSArg) (builtinMap : Option TokenMap) : Option String :=
  match modelName with
  | JSArg.other => none
  | JSArg.str name =>
    match builtinMap with
    | none => some name
    | some m =>
      if valueTruthy (mapGet m name) then some name
      else
        match findMatchingPattern name m with
        | some pat => if pat = "" then some name else some pat
        | none => some name

/-- A JSON value, the shape of the externally fetched catalog payload. -/
inductive JValue where
  | null : JValue
  | bool : Bool → JValue
  | num : ℚ → JValue
  | str : String → JValue
  | arr : List JValue → JValue
  | obj : List (String × JValue) → JValue

/-- Field read on a JSON object. -/
def jGet (fields : List (String × JValue)) (k : String) : Option JValue :=
  match fields.find? (fun p => p.1 == k) with
  | some p => some p.2
  | none => none

/-- A catalog entry after validation (`z.infer<typeof modelSchema>`):
`{ id, pricing: { prompt, completion }, context_length }` with string
prices and a numeric context length. -/
structure ModelEntry where
  id : String
  promptPrice : String
  completionPrice : String
  context_length : ℚ
deriving DecidableEq, Repr

/-- Source lines 160–167 (`modelSchema`): zod validation of one entry —
`id` must be a string, `pricing` an object with string `prompt` and
`completion`, `context_length` a number; extra keys are ignored, any
missing or wrongly-typed field fails. -/
def parseModel : JValue → Option ModelEntry
  | JValue.obj fs =>
    match jGet fs "id", jGet fs "pricing", jGet fs "context_length" with
    | some (JValue.str i), some (JValue.obj pf), some (JValue.num cl) =>
      match jGet pf "prompt", jGet pf "completion" with
      | some (JValue.str p), some (JValue.str c) =>
        some { id := i, promptPrice := p, completionPrice := c, context_length := cl }
      | _, _ => none
    | _, _, _ => none
  | _ => none

/-- Source lines 169–171 (`inputSchema`): the payload must be an object
whose `data` field is an array of valid entries; `safeParse` succeeds
exactly when every entry validates. -/
def parseInput (v : JValue) : Option (List ModelEntry) :=
  match v with
  | JValue.obj fs =>
    match jGet fs "data" with
    | some (JValue.arr items) => items.mapM parseModel
    | _ => none
  | _ => none

/-- Numeric value of a digit run. -/
def digitsVal (ds : List Char) : ℕ :=
  ds.foldl (fun a c => a * 10 + (c.toNat - 48)) 0

/-- Longest leading digit run and the rest. -/
def takeDigits : List Char → List Char × List Char
  | [] => ([], [])
  | c :: cs =>
    if c.isDigit then
      let r := takeDigits cs
      (c :: r.1, r.2)
    else ([], c :: cs)

/-- Exponent part after `e`/`E`: optional sign then digits; `none` when
no digits follow (JS `parseFloat` then ignores the exponent marker). -/
def parseExpPart (cs : List Char) : Option ℤ :=
  let sr : ℤ × List Char :=
    match cs with
    | '+' :: t => (1, t)
    | '-' :: t => (-1, t)
    | t => (1, t)
  let ds := takeDigits sr.2
  if ds.1.isEmpty then none else some (sr.1 * (digitsVal ds.1 : ℤ))

/-- JavaScript `parseFloat`, modelled exactly over rationals: skip
leading whitespace, optional sign, digits with optional fraction and
optional exponent, parsing the longest valid numeric prefix; `NaN` when
no digits are found. (The `Infinity` literal is out of the catalog's
decimal-string domain and parses as `NaN` here.) -/
def jsParseFloat (s : String) : JNum :=
  let cs := s.toList.dropWhile (fun c => c == ' ' || c == '\t' || c == '\n' || c == '\r')
  let sr : ℚ × List Char :=
    match cs with
    | '+' :: t => (1, t)
    | '-' :: t => (-1, t)
    | t => (1, t)
  let ip := takeDigits sr.2
  let fp : List Char × List Char :=
    match ip.2 with
    | '.' :: t => takeDigits t
    | t => ([], t)
  if ip.1.isEmpty && fp.1.isEmpty then JNum.nan
  else
    let base : ℚ := (digitsVal ip.1 : ℚ) + (digitsVal fp.1 : ℚ) / ((10 : ℚ) ^ fp.1.length)
    let e : ℤ :=
      match fp.2 with
      | 'e' :: t => (parseExpPart t).getD 0
      | 'E' :: t => (parseExpPart t).getD 0
      | _ => 0
    let scaled : ℚ := if 0 ≤ e then base * (10 : ℚ) ^ e.toNat else base / (10 : ℚ) ^ (-e).toNat
    JNum.rat (sr.1 * scaled)

/-- Source lines 190–195: the `openrouter/auto` sentinel has its pricing
overwritten in place to `'0.00001'` / `'0.00003'` before conversion. -/
def effectiveEntry (e : ModelEntry) : ModelEntry :=
  if e.id = "openrouter/auto" then
    { e with promptPrice := "0.00001", completionPrice := "0.00003" }
  else e

/-- Source lines 196–203: one loop iteration's stored value —
`{ prompt: parseFloat(pricing.prompt) * 1000000, completion: …, context: context_length }`
(after the sentinel overwrite; the record never carries `output`). -/
def normalizeEntry (e : ModelEntry) : TokenValue :=
  TokenValue.config
    { prompt := some ((jsParseFloat (effectiveEntry e).promptPrice).mul1e6)
      completion := some ((jsParseFloat (effectiveEntry e).completionPrice).mul1e6)
      context := some (JNum.rat e.context_length)
      output := none }

/-- Source lines 186–204: the loop over validated entries, building the
output object by property assignment (`tokenConfig[modelKey] = {...}`). -/
def buildMap (entries : List ModelEntry) : TokenMap :=
  entries.foldl (fun acc e => setKey acc e.id (normalizeEntry e)) []

/-- Source lines 178–207: `processModelData(input)` — `safeParse` the
input, `throw new Error('Invalid input data')` on failure, else build
and return the token map. -/
def processModelData (input : JValue) : Except String TokenMap :=
  match parseInput input with
  | none => Except.error "Invalid input data"
  | some data => Except.ok (buildMap data)

/-! Concrete instances used to exercise the theorems below. -/

/-- A small map with a general key followed by a later, more specific key. -/
def gptMap : TokenMap :=
  [("gpt-4", TokenValue.num (JNum.rat 8192)), ("gpt-4-32k", TokenValue.num (JNum.rat 32768))]

/-- An exact key whose structured value has a populated context. -/
def c2Map : TokenMap :=
  [("m1", TokenValue.config
    { prompt := some (JNum.rat 7), completion := none
      context := some (JNum.rat 8192), output := none })]

/-- A well-formed one-entry catalog payload. -/
def c3Input : JValue :=
  JValue.obj [("data", JValue.arr [JValue.obj
    [("id", JValue.str "m1"),
     ("pricing", JValue.obj [("prompt", JValue.str "2"), ("completion", JValue.str "4")]),
     ("context_length", JValue.num 8192)]])]

/-- The entry of `c3Input` after validation. -/
def c3Entry : ModelEntry :=
  { id := "m1", promptPrice := "2", completionPrice := "4", context_length := 8192 }

/-- A map whose exact key holds the falsy number `0` while a later key
also matches by substring. -/
def c4Map : TokenMap :=
  [("abc", TokenValue.num (JNum.rat 0)), ("b", TokenValue.num (JNum.rat 5))]

/-- A map with a `system_default` entry and no key matching `"zzz"`. -/
def c5Map : TokenMap :=
  [("m1", TokenValue.num (JNum.rat 4)), ("system_default", TokenValue.num (JNum.rat 99))]

/-- A map whose matched entry lacks the requested field. -/
def c5MapB : TokenMap :=
  [("m1", TokenValue.config
    { prompt := none, completion := none, context := none, output := none }),
   ("system_default", TokenValue.num (JNum.rat 99))]

/-- A catalog payload carrying the `openrouter/auto` sentinel with bogus pricing. -/
def c6Input : JValue :=
  JValue.obj [("data", JValue.arr [JValue.obj
    [("id", JValue.str "openrouter/auto"),
     ("pricing", JValue.obj [("prompt", JValue.str "1"), ("completion", JValue.str "1")]),
     ("context_length", JValue.num 2000)]])]

/-- The entry of `c6Input` after validation. -/
def c6Entry : ModelEntry :=
  { id := "openrouter/auto", promptPrice := "1", completionPrice := "1", context_length := 2000 }

/-- A payload with a duplicated id: the later entry must win. -/
def c7Input : JValue :=
  JValue.obj [("data", JValue.arr
    [JValue.obj
      [("id", JValue.str "m1"),
       ("pricing", JValue.obj [("prompt", JValue.str "2"), ("completion", JValue.str "4")]),
       ("context_length", JValue.num 100)],
     JValue.obj
      [("id", JValue.str "m1"),
       ("pricing", JValue.obj [("prompt", JValue.str "5"), ("completion", JValue.str "6")]),
       ("context_length", JValue.num 200)]])]

/-- The entries of `c7Input` after validation. -/
def c7Entries : List ModelEntry :=
  [{ id := "m1", promptPrice := "2", completionPrice := "4", context_length := 100 },
   { id := "m1", promptPrice := "5", completionPrice := "6", context_length := 200 }]

/-- A payload with an entry missing `context_length`. -/
def c8MissingCL : JValue :=
  JValue.obj [("data", JValue.arr [JValue.obj
    [("id", JValue.str "m1"),
     ("pricing", JValue.obj [("prompt", JValue.str "0.000002"), ("completion", JValue.str "0.000004")])]])]

/-- A payload whose `context_length` is a string, not a number. -/
def c8BadCL : JValue :=
  JValue.obj [("data", JValue.arr [JValue.obj
    [("id", JValue.str "m1"),
     ("pricing", JValue.obj [("prompt", JValue.str "0.000002"), ("completion", JValue.str "0.000004")]),
     ("context_length", JValue.str "8192")]])]

/-- A payload with an entry missing `pricing`. -/
def c8NoPricing : JValue :=
  JValue.obj [("data", JValue.arr [JValue.obj
    [("id", JValue.str "m1"), ("context_length", JValue.num 8192)]])]

/-- An exact key whose structured value has no context, forcing the
pattern path to serve the requested field. -/
def c9Map : TokenMap :=
  [("m1", TokenValue.config
    { prompt := some (JNum.rat 7), completion := none, context := none, output := none })]

/-- A map ending in `system_default` holding a structured record. -/
def c10Map : TokenMap :=
  [("m1", TokenValue.num (JNum.rat 4)),
   ("system_default", TokenValue.config
     { prompt := some (JNum.rat 12), completion := none, context := none, output := none })]

/-! Helper lemmas on the dictionary model. Batteries marks the rational
operations irreducible, which blocks elaborator-side evaluation of
concrete instances; re-enable unfolding for this development. -/

attribute [local semireducible] Rat.add Rat.mul Rat.inv Rat.sub

theorem mapGet_nil (K : String) : mapGet [] K = none := rfl

theorem mapGet_cons (a : String) (x : TokenValue) (t : TokenMap) (K : String) :
    mapGet ((a, x) :: t) K = if a = K then some x else mapGet t K := by
  by_cases h : a = K
  · simp [mapGet, List.find?_cons_of_pos, h]
  · simp only [mapGet, if_neg h]
    rw [List.find?_cons_of_neg]
    simp [h]

theorem mapGet_setKey (m : TokenMap) (k K : String) (v : TokenValue) :
    mapGet (setKey m k v) K = if k = K then some v else mapGet m K := by
  induction m with
  | nil =>
    simp only [setKey]
    rw [mapGet_cons, mapGet_nil]
  | cons p t ih =>
    obtain ⟨a, w⟩ := p
    simp only [setKey]
    by_cases hak : a = k
    · subst hak
      rw [if_pos rfl, mapGet_cons, mapGet_cons]
      by_cases hK : a = K
      · simp [hK]
      · simp [hK]
    · rw [if_neg hak, mapGet_cons, mapGet_cons, ih]
      by_cases hK : a = K
      · subst hK
        have hka : ¬k = a := fun h => hak h.symm
        simp [hka]
      · simp [hK]

theorem keys_setKey (m : TokenMap) (k : String) (v : TokenValue) :
    (setKey m k v).map Prod.fst =
      if k ∈ m.map Prod.fst then m.map Prod.fst else m.map Prod.fst ++ [k] := by
  induction m with
  | nil => simp [setKey]
  | cons p t ih =>
    obtain ⟨a, w⟩ := p
    by_cases hak : a = k
    · subst hak
      simp [setKey]
    · simp only [setKey, if_neg hak, List.map_cons, ih]
      by_cases hk : k ∈ t.map Prod.fst
      · simp [hk]
      · have hne : ¬k = a := fun h => hak h.symm
        simp [hk, hne]

theorem nodup_keys_setKey (m : TokenMap) (k : String) (v : TokenValue)
    (h : (m.map Prod.fst).Nodup) : ((setKey m k v).map Prod.fst).Nodup := by
  rw [keys_setKey]
  by_cases hk : k ∈ m.map Prod.fst
  · simpa [hk]
  · rw [if_neg hk]
    simp only [List.nodup_append, List.nodup_cons, List.not_mem_nil, not_false_iff,
      List.nodup_nil, and_true, true_and]
    exact ⟨h, by simpa [List.disjoint_singleton] using hk⟩

theorem mapGet_foldl_setKey (l : List ModelEntry) (m0 : TokenMap) (K : String) :
    mapGet (l.foldl (fun acc e => setKey acc e.id (normalizeEntry e)) m0) K =
      (match l.reverse.find? (fun e => e.id == K) with
       | some e => some (normalizeEntry e)
       | none => mapGet m0 K) := by
  induction l generalizing m0 with
  | nil => simp
  | cons e t ih =>
    simp only [List.foldl_cons, List.reverse_cons, List.find?_append]
    rw [ih]
    cases hf : t.reverse.find? (fun x => x.id == K) with
    | some e2 => simp [Option.or]
    | none =>
      simp only [Option.none_or]
      rw [mapGet_setKey]
      by_cases h : e.id = K
      · rw [if_pos h, List.find?_cons_of_pos _ (by simpa using h)]
      · rw [if_neg h, List.find?_cons_of_neg _ (by simpa using h), List.find?_nil]

theorem nodup_keys_foldl (l : List ModelEntry) (m0 : TokenMap)
    (h : (m0.map Prod.fst).Nodup) :
    ((l.foldl (fun acc e => setKey acc e.id (normalizeEntry e)) m0).map Prod.fst).Nodup := by
  induction l generalizing m0 with
  | nil => simpa
  | cons e t ih => exact ih _ (nodup_keys_setKey _ _ _ h)

theorem mapGet_buildMap (entries : List ModelEntry) (K : String) :
    mapGet (buildMap entries) K =
      (match entries.reverse.find? (fun e => e.id == K) with
       | some e => some (normalizeEntry e)
       | none => none) := by
  rw [buildMap, mapGet_foldl_setKey]
  cases entries.reverse.find? (fun e => e.id == K) <;> rfl

/-! Claim theorems. -/

/-- C1: for every model name and tokens map, `findMatchingPattern`
returns a key of the map that is a substring of the lowercased model
name, scanning keys in reverse insertion order so that when several
keys match the last-inserted matching key is returned (no key after the
returned one matches); it returns null when and only when no key
matches, in particular on the empty map. -/
theorem C1_findMatchingPattern_spec (name : String) (m : TokenMap) :
    (∀ k, findMatchingPattern name m = some k →
      k ∈ m.map Prod.fst ∧ strIncludes (jsToLower name) k = true ∧
      ∃ l1 l2, m.map Prod.fst = l1 ++ k :: l2 ∧
        ∀ k2 ∈ l2, strIncludes (jsToLower name) k2 = false)
    ∧ (findMatchingPattern name m = none ↔
        ∀ k ∈ m.map Prod.fst, strIncludes (jsToLower name) k = false)
    ∧ findMatchingPattern name ([] : TokenMap) = none := by
  refine ⟨?_, ?_, rfl⟩
  · intro k hk
    unfold findMatchingPattern at hk
    rw [List.find?_eq_some] at hk
    obtain ⟨hp, as, bs, hsplit, hall⟩ := hk
    have hkeys : m.map Prod.fst = bs.reverse ++ k :: as.reverse := by
      have h2 := congrArg List.reverse hsplit
      rw [List.reverse_reverse] at h2
      rw [h2, List.reverse_append, List.reverse_cons, List.append_assoc,
        List.singleton_append]
    refine ⟨?_, hp, bs.reverse, as.reverse, hkeys, ?_⟩
    · rw [hkeys]
      exact List.mem_append_right _ (List.mem_cons_self _ _)
    · intro k2 hk2
      have hmem : k2 ∈ as := List.mem_reverse.mp hk2
      simpa using hall k2 hmem
  · unfold findMatchingPattern
    rw [List.find?_eq_none]
    constructor
    · intro h k hk
      simpa using h k (List.mem_reverse.mpr hk)
    · intro h k hk
      simp [h k (List.mem_reverse.mp hk)]

theorem C1_witness :
    ("gpt-4-32k" ∈ gptMap.map Prod.fst ∧
      strIncludes (jsToLower "GPT-4-32K-0613") "gpt-4-32k" = true ∧
      ∃ l1 l2, gptMap.map Prod.fst = l1 ++ "gpt-4-32k" :: l2 ∧
        ∀ k2 ∈ l2, strIncludes (jsToLower "GPT-4-32K-0613") k2 = false) :=
  (C1_findMatchingPattern_spec "GPT-4-32K-0613" gptMap).1 "gpt-4-32k" (by decide)

theorem getTV_exact_truthy_context (name : String) (m : TokenMap)
    (c : TokenConfig) (q : ℚ)
    (hget : mapGet m name = some (TokenValue.config c))
    (hctx : c.context = some (JNum.rat q)) (hq : q ≠ 0) (field : TokenField) :
    getModelTokenValue (JSArg.str name) (some m) field =
      some (TokenValue.num (JNum.rat q)) := by
  have htr : JNum.truthy (JNum.rat q) = true := by
    simp [JNum.truthy, hq]
  simp [getModelTokenValue, hget, exactStep, truthyContext, hctx, htr]

/-- C2: when the tokens map holds the model name as an exact key whose
value is a structured record with a truthy (populated) `context` field,
`getModelTokenValue` returns that context value for every requested
field — the exact-match fast path is hardcoded to `context`. -/
theorem C2_exact_fast_path_hardcoded_context (name : String) (m : TokenMap)
    (c : TokenConfig) (q : ℚ)
    (hget : mapGet m name = some (TokenValue.config c))
    (hctx : c.context = some (JNum.rat q)) (hq : q ≠ 0) (field : TokenField) :
    getModelTokenValue (JSArg.str name) (some m) field =
      some (TokenValue.num (JNum.rat q)) :=
  getTV_exact_truthy_context name m c q hget hctx hq field

theorem C2_witness :
    getModelTokenValue (JSArg.str "m1") (some c2Map) TokenField.prompt =
      some (TokenValue.num (JNum.rat 8192)) :=
  C2_exact_fast_path_hardcoded_context "m1" c2Map _ 8192 rfl rfl
    (by norm_num) TokenField.prompt

/-- C3 counterexample: on a one-entry catalog with id `m1`, prompt price
`"2"`, completion price `"4"` and context length `8192`, querying the
produced map with the exact id and the `prompt` field returns the
context value `8192`, not the id's normalized prompt value `2000000` —
the exact-match fast path is hardcoded to `context`, so the claimed
per-field round-trip fails. -/
theorem C3_counterexample :
    parseInput c3Input = some [c3Entry] ∧
    processModelData c3Input = Except.ok (buildMap [c3Entry]) ∧
    normalizeEntry c3Entry = TokenValue.config
      { prompt := some (JNum.rat 2000000), completion := some (JNum.rat 4000000)
        context := some (JNum.rat 8192), output := none } ∧
    getModelTokenValue (JSArg.str "m1") (some (buildMap [c3Entry])) TokenField.prompt =
      some (TokenValue.num (JNum.rat 8192)) ∧
    (TokenValue.num (JNum.rat 8192) : TokenValue) ≠ TokenValue.num (JNum.rat 2000000) := by
  refine ⟨rfl, rfl, by decide, by decide, by decide⟩

/-- C3 (amended): for every valid catalog input and entry id present in
it, querying the produced map with that exact id returns the id's
normalized `context` value (`context_length`) for every requested field
(context, prompt and completion alike), provided the stored
context_length is truthy (nonzero); the last entry with the id is the
one that counts. -/
theorem C3_roundtrip_exact_context (input : JValue) (entries : List ModelEntry)
    (e : ModelEntry)
    (hp : parseInput input = some entries)
    (hlast : entries.reverse.find? (fun x => x.id == e.id) = some e)
    (hcl : e.context_length ≠ 0) (field : TokenField) :
    processModelData input = Except.ok (buildMap entries) ∧
    getModelTokenValue (JSArg.str e.id) (some (buildMap entries)) field =
      some (TokenValue.num (JNum.rat e.context_length)) := by
  constructor
  · rw [processModelData, hp]
  · have hget : mapGet (buildMap entries) e.id = some (normalizeEntry e) := by
      rw [mapGet_buildMap, hlast]
    exact getTV_exact_truthy_context e.id (buildMap entries) _ e.context_length
      hget rfl hcl field

theorem C3_witness :
    processModelData c3Input = Except.ok (buildMap [c3Entry]) ∧
    getModelTokenValue (JSArg.str c3Entry.id) (some (buildMap [c3Entry]))
        TokenField.completion =
      some (TokenValue.num (JNum.rat c3Entry.context_length)) :=
  C3_roundtrip_exact_context c3Input [c3Entry] c3Entry rfl (by decide) (by decide)
    TokenField.completion

/-- C4 counterexample: against a map whose exact key `"abc"` holds the
falsy number `0` and whose later key `"b"` is a substring of the name,
`matchModelName "abc"` returns `"b"`, not the input unchanged — the
exact-key check is a JS truthiness test, not a presence test. -/
theorem C4_counterexample :
    mapGet c4Map "abc" = some (TokenValue.num (JNum.rat 0)) ∧
    matchModelName (JSArg.str "abc") (some c4Map) = some "b" ∧
    (some "b" : Option String) ≠ some "abc" := by
  refine ⟨rfl, rfl, by decide⟩

/-- C4 (amended): `matchModelName` returns undefined for a non-string
name; returns the input unchanged when no built-in map exists for the
endpoint; returns the input unchanged when the exact name maps to a
truthy value (a nonzero non-NaN number or a structured record); when
that exact value is falsy or absent it returns the key found by
`findMatchingPattern` provided that key is truthy (non-null and
nonempty), and otherwise — no pattern match or an empty-string match —
returns the original name unchanged (never `system_default`). -/
theorem C4_matchModelName_spec (name : String) (bm : Option TokenMap) :
    matchModelName JSArg.other bm = none
    ∧ matchModelName (JSArg.str name) none = some name
    ∧ (∀ m, bm = some m → valueTruthy (mapGet m name) = true →
        matchModelName (JSArg.str name) bm = some name)
    ∧ (∀ m pat, bm = some m → valueTruthy (mapGet m name) = false →
        findMatchingPattern name m = some pat → pat ≠ "" →
        matchModelName (JSArg.str name) bm = some pat)
    ∧ (∀ m, bm = some m → valueTruthy (mapGet m name) = false →
        findMatchingPattern name m = some "" →
        matchModelName (JSArg.str name) bm = some name)
    ∧ (∀ m, bm = some m → valueTruthy (mapGet m name) = false →
        findMatchingPattern name m = none →
        matchModelName (JSArg.str name) bm = some name) := by
  refine ⟨rfl, rfl, ?_, ?_, ?_, ?_⟩
  · intro m hbm htr
    subst hbm
    simp [matchModelName, htr]
  · intro m pat hbm htr hfind hpat
    subst hbm
    simp [matchModelName, htr, hfind, hpat]
  · intro m hbm htr hfind
    subst hbm
    simp [matchModelName, htr, hfind]
  · intro m hbm htr hfind
    subst hbm
    simp [matchModelName, htr, hfind]

theorem C4_witness :
    matchModelName (JSArg.str "gpt-4-32k-unknown") (some gptMap) = some "gpt-4-32k" :=
  (C4_matchModelName_spec "gpt-4-32k-unknown" (some gptMap)).2.2.2.1 gptMap "gpt-4-32k"
    rfl rfl rfl (by decide)

/-- C5: `getModelTokenValue` is total and returns undefined for a
non-string model name or an absent map; when the exact-match step yields
nothing and either no pattern matches or the matched entry lacks a
numeric value at the requested field, it returns the map's
`system_default` value — hence undefined for every name on an empty map. -/
theorem C5_no_throw_default_fallback (name : String) (m : TokenMap) (field : TokenField) :
    getModelTokenValue JSArg.other (some m) field = none
    ∧ getModelTokenValue (JSArg.str name) none field = none
    ∧ getModelTokenValue (JSArg.str name) (some []) field = none
    ∧ (exactStep (mapGet m name) = none → findMatchingPattern name m = none →
        getModelTokenValue (JSArg.str name) (some m) field = mapGet m "system_default")
    ∧ (∀ pat c, exactStep (mapGet m name) = none →
        findMatchingPattern name m = some pat → pat ≠ "" →
        mapGet m pat = some (TokenValue.config c) → c.getF field = none →
        getModelTokenValue (JSArg.str name) (some m) field = mapGet m "system_default") := by
  refine ⟨rfl, rfl, rfl, ?_, ?_⟩
  · intro hstep hfind
    simp [getModelTokenValue, hstep, patternPath, hfind]
  · intro pat c hstep hfind hpat hgetp hfield
    simp [getModelTokenValue, hstep, patternPath, hfind, hpat, hgetp, hfield]

theorem C5_witness :
    getModelTokenValue (JSArg.str "zzz") (some c5Map) TokenField.context =
      mapGet c5Map "system_default" :=
  ((C5_no_throw_default_fallback "zzz" c5Map TokenField.context).2.2.2.1) rfl rfl

theorem parse_sentinel_prompt : (jsParseFloat "0.00001").mul1e6 = JNum.rat 10 := by
  decide

theorem parse_sentinel_completion : (jsParseFloat "0.00003").mul1e6 = JNum.rat 30 := by
  decide

/-- C6: for every valid catalog input containing an entry with the id
`openrouter/auto`, the produced map's entry at that id has prompt `10`
and completion `30` (the forced pricing `0.00001` / `0.00003` dollars
per token times `1000000`), regardless of the pricing strings supplied
by the input entry. -/
theorem C6_openrouter_auto_forced (input : JValue) (entries : List ModelEntry)
    (e : ModelEntry) (hp : parseInput input = some entries)
    (hmem : e ∈ entries) (hid : e.id = "openrouter/auto") :
    processModelData input = Except.ok (buildMap entries) ∧
    ∃ c, mapGet (buildMap entries) "openrouter/auto" = some (TokenValue.config c) ∧
      c.prompt = some (JNum.rat 10) ∧ c.completion = some (JNum.rat 30) := by
  have hexists : ∃ e2, entries.reverse.find? (fun x => x.id == "openrouter/auto") = some e2 := by
    have hsome : (entries.reverse.find? (fun x => x.id == "openrouter/auto")).isSome := by
      rw [List.find?_isSome]
      exact ⟨e, List.mem_reverse.mpr hmem, by simp [hid]⟩
    exact Option.isSome_iff_exists.mp hsome
  obtain ⟨e2, hfind⟩ := hexists
  have hid2 : e2.id = "openrouter/auto" := by
    simpa using List.find?_some hfind
  have hnorm : normalizeEntry e2 = TokenValue.config
      { prompt := some (JNum.rat 10), completion := some (JNum.rat 30)
        context := some (JNum.rat e2.context_length), output := none } := by
    rw [normalizeEntry, effectiveEntry, if_pos hid2]
    rw [show ({ e2 with promptPrice := "0.00001", completionPrice := "0.00003" } : ModelEntry).promptPrice = "0.00001" from rfl]
    rw [show ({ e2 with promptPrice := "0.00001", completionPrice := "0.00003" } : ModelEntry).completionPrice = "0.00003" from rfl]
    rw [parse_sentinel_prompt, parse_sentinel_completion]
  refine ⟨by rw [processModelData, hp],
    { prompt := some (JNum.rat 10), completion := some (JNum.rat 30)
      context := some (JNum.rat e2.context_length), output := none }, ?_, rfl, rfl⟩
  rw [mapGet_buildMap, hfind]
  show some (normalizeEntry e2) = _
  rw [hnorm]

theorem C6_witness :
    processModelData c6Input = Except.ok (buildMap [c6Entry]) ∧
    ∃ c, mapGet (buildMap [c6Entry]) "openrouter/auto" = some (TokenValue.config c) ∧
      c.prompt = some (JNum.rat 10) ∧ c.completion = some (JNum.rat 30) :=
  C6_openrouter_auto_forced c6Input [c6Entry] c6Entry rfl (by decide) rfl

/-- C7: for every valid catalog input, `processModelData` returns a map
whose keys are exactly the input ids (one entry per id, keys distinct),
and whose value at an id is always a full structured record — never a
bare number — with prompt and completion the entry's (possibly
sentinel-overwritten) pricing strings parsed as floating point and
multiplied by `1000000`, and context the entry's `context_length`; when
several entries share an id the last one's values win. -/
theorem C7_processModelData_shape (input : JValue) (entries : List ModelEntry)
    (hp : parseInput input = some entries) :
    processModelData input = Except.ok (buildMap entries)
    ∧ ((buildMap entries).map Prod.fst).Nodup
    ∧ (∀ K, (mapGet (buildMap entries) K).isSome ↔ ∃ e ∈ entries, e.id = K)
    ∧ (∀ K e, entries.reverse.find? (fun x => x.id == K) = some e →
        mapGet (buildMap entries) K = some (TokenValue.config
          { prompt := some ((jsParseFloat (effectiveEntry e).promptPrice).mul1e6)
            completion := some ((jsParseFloat (effectiveEntry e).completionPrice).mul1e6)
            context := some (JNum.rat e.context_length)
            output := none })) := by
  refine ⟨by rw [processModelData, hp], nodup_keys_foldl entries [] (by simp), ?_, ?_⟩
  · intro K
    rw [mapGet_buildMap]
    cases hf : entries.reverse.find? (fun x => x.id == K) with
    | some e2 =>
      simp only [Option.isSome_some, true_iff]
      refine ⟨e2, List.mem_reverse.mp (List.mem_of_find?_eq_some hf), ?_⟩
      simpa using List.find?_some hf
    | none =>
      simp only [Option.isSome_none, Bool.false_eq_true, false_iff]
      rw [List.find?_eq_none] at hf
      rintro ⟨e2, hmem, hide⟩
      exact absurd (by simp [hide]) (hf e2 (List.mem_reverse.mpr hmem))
  · intro K e hf
    rw [mapGet_buildMap, hf]
    rfl

theorem C7_witness :
    processModelData c7Input = Except.ok (buildMap c7Entries) ∧
    mapGet (buildMap c7Entries) "m1" = some (TokenValue.config
      { prompt := some (JNum.rat 5000000), completion := some (JNum.rat 6000000)
        context := some (JNum.rat 200), output := none }) := by
  refine ⟨(C7_processModelData_shape c7Input c7Entries rfl).1, ?_⟩
  have h := (C7_processModelData_shape c7Input c7Entries rfl).2.2.2 "m1"
    { id := "m1", promptPrice := "5", completionPrice := "6", context_length := 200 }
    (by decide)
  rw [h]
  have h5 : (jsParseFloat "5").mul1e6 = JNum.rat 5000000 := by decide
  have h6 : (jsParseFloat "6").mul1e6 = JNum.rat 6000000 := by decide
  rw [show (effectiveEntry { id := "m1", promptPrice := "5", completionPrice := "6", context_length := 200 }) = { id := "m1", promptPrice := "5", completionPrice := "6", context_length := (200:ℚ) } from by decide]
  rw [h5, h6]

/-- C8: an input that does not conform to the catalog shape — e.g. an
entry missing `pricing` or `context_length`, or a non-numeric
`context_length` — makes `processModelData` fail with the validation
error and produce no output at all: a map is produced only when the
whole batch validates. -/
theorem C8_validation_all_or_nothing (input : JValue) :
    (parseInput input = none → processModelData input = Except.error "Invalid input data")
    ∧ (∀ m, processModelData input = Except.ok m →
        ∃ entries, parseInput input = some entries ∧ m = buildMap entries)
    ∧ processModelData c8MissingCL = Except.error "Invalid input data"
    ∧ processModelData c8BadCL = Except.error "Invalid input data"
    ∧ processModelData c8NoPricing = Except.error "Invalid input data" := by
  refine ⟨?_, ?_, rfl, rfl, rfl⟩
  · intro h
    rw [processModelData, h]
  · intro m hm
    rw [processModelData] at hm
    cases hp : parseInput input with
    | none => rw [hp] at hm; exact absurd hm (by simp)
    | some entries =>
      rw [hp] at hm
      exact ⟨entries, rfl, by simpa using hm.symm⟩

theorem C8_witness :
    processModelData c8MissingCL = Except.error "Invalid input data" :=
  (C8_validation_all_or_nothing c8MissingCL).1 rfl

/-- C9: when the tokens map holds the model name as an exact key whose
structured value has no truthy (populated) `context` field, the exact
match does not settle the lookup: `getModelTokenValue` proceeds to
pattern resolution, and the requested (possibly non-context) field of
the matched entry — often the same key — is what can be returned; when
the matched structured entry lacks a numeric value at the requested
field, the map's `system_default` is returned instead. -/
theorem C9_exact_without_context_goes_to_pattern (name : String) (m : TokenMap)
    (c : TokenConfig) (field : TokenField)
    (hget : mapGet m name = some (TokenValue.config c))
    (hctx : jnumOptTruthy c.context = false) :
    getModelTokenValue (JSArg.str name) (some m) field = patternPath name m field
    ∧ (∀ pat c2 v, findMatchingPattern name m = some pat → pat ≠ "" →
        mapGet m pat = some (TokenValue.config c2) → c2.getF field = some v →
        getModelTokenValue (JSArg.str name) (some m) field = some (TokenValue.num v))
    ∧ (∀ pat c2, findMatchingPattern name m = some pat → pat ≠ "" →
        mapGet m pat = some (TokenValue.config c2) → c2.getF field = none →
        getModelTokenValue (JSArg.str name) (some m) field = mapGet m "system_default") := by
  have hstep : exactStep (mapGet m name) = none := by
    rw [hget]
    cases hcc : c.context with
    | none => simp [exactStep, truthyContext, hcc]
    | some n =>
      have hn : n.truthy = false := by simpa [jnumOptTruthy, hcc] using hctx
      simp [exactStep, truthyContext, hcc, hn]
  have hmain : getModelTokenValue (JSArg.str name) (some m) field = patternPath name m field := by
    simp [getModelTokenValue, hstep]
  refine ⟨hmain, ?_, ?_⟩
  · intro pat c2 v hfind hpat hgetp hfld
    rw [hmain]
    simp [patternPath, hfind, hpat, hgetp, hfld]
  · intro pat c2 hfind hpat hgetp hfld
    rw [hmain]
    simp [patternPath, hfind, hpat, hgetp, hfld]

theorem C9_witness :
    getModelTokenValue (JSArg.str "m1") (some c9Map) TokenField.prompt =
      some (TokenValue.num (JNum.rat 7)) :=
  (C9_exact_without_context_goes_to_pattern "m1" c9Map
      { prompt := some (JNum.rat 7), completion := none, context := none, output := none }
      TokenField.prompt rfl rfl).2.1 "m1"
    { prompt := some (JNum.rat 7), completion := none, context := none, output := none }
    (JNum.rat 7) rfl (by decide) rfl rfl

/-- C10: the reserved key `system_default` is not excluded from pattern
matching — `findMatchingPattern` scans every key, so a model name whose
lowercased text contains the substring `system_default` always finds a
match (the key `system_default` itself when it is the last key), and
with no exact entry for the name `getModelTokenValue` resolves it
through the pattern path rather than the terminal fallback — in
particular a structured `system_default` entry then has its requested
field extracted, which the terminal fallback never does. -/
theorem C10_system_default_participates (name : String) (m : TokenMap) (field : TokenField)
    (hmem : "system_default" ∈ m.map Prod.fst)
    (hsub : strIncludes (jsToLower name) "system_default" = true) :
    findMatchingPattern name m ≠ none
    ∧ (∀ l, m.map Prod.fst = l ++ ["system_default"] →
        findMatchingPattern name m = some "system_default")
    ∧ (mapGet m name = none →
        getModelTokenValue (JSArg.str name) (some m) field = patternPath name m field)
    ∧ (∀ c v, mapGet m name = none →
        findMatchingPattern name m = some "system_default" →
        mapGet m "system_default" = some (TokenValue.config c) → c.getF field = some v →
        getModelTokenValue (JSArg.str name) (some m) field = some (TokenValue.num v)) := by
  refine ⟨?_, ?_, ?_, ?_⟩
  · intro hnone
    unfold findMatchingPattern at hnone
    rw [List.find?_eq_none] at hnone
    exact absurd hsub (by simpa using hnone "system_default" (List.mem_reverse.mpr hmem))
  · intro l hkeys
    unfold findMatchingPattern
    rw [hkeys, List.reverse_append]
    simp only [List.reverse_cons, List.reverse_nil, List.nil_append, List.singleton_append]
    exact List.find?_cons_of_pos _ (by simpa using hsub)
  · intro hnoexact
    simp [getModelTokenValue, exactStep, truthyContext, hnoexact]
  · intro c v hnoexact hfind hgetd hfld
    have hmain : getModelTokenValue (JSArg.str name) (some m) field = patternPath name m field := by
      simp [getModelTokenValue, exactStep, truthyContext, hnoexact]
    rw [hmain]
    simp [patternPath, hfind, hgetd, hfld]

theorem C10_witness :
    getModelTokenValue (JSArg.str "the-system_default-model") (some c10Map) TokenField.prompt =
      some (TokenValue.num (JNum.rat 12)) :=
  (C10_system_default_participates "the-system_default-model" c10Map TokenField.prompt
      (by decide) (by decide)).2.2.2
    { prompt := some (JNum.rat 12), completion := none, context := none, output := none }
    (JNum.rat 12) rfl (by decide) rfl rfl
